import Mathlib

/-!
# Verification of the recapv1 audio pipeline

Shallow embedding of the audio-preparation and chunked-transcription pipeline
of the repository: the segmenter `split_audio` and the two mode handlers of
`app.py`, and `convert_to_wav` / `prepare_audio` from `src/utils/audio.py`
and `transcribe_diarized` from `src/utils/transcription.py`.  Waveforms are
modelled as lists of millisecond frames, byte blobs as lists of naturals,
the transient files a call leaves on disk as an association list from path
to contents, and the external ffmpeg process and transcription service as
explicit behaviour parameters.
-/

namespace Recap

/-! ## Data model -/

/-- An uploaded file as the UI hands it to the pipeline: declared name,
declared byte size, raw bytes. -/
structure Upload where
  name : String
  size : Nat
  data : List Nat
deriving DecidableEq

/-- An in-memory audio buffer (`io.BytesIO` with a `name` attribute). -/
structure Buffer where
  name : String
  data : List Nat
deriving DecidableEq

/-- The Python exceptions the audio utilities can actually raise. -/
inductive PyError where
  | fileNotFound (path : String)
  | valueError (msg : String)
  | typeError (msg : String)
deriving DecidableEq

deriving instance DecidableEq for Except

/-! ## Segmenter (`split_audio`, `app.py` lines 62–73) -/

/-- Python `range(0, stop, step)` for a positive step: all multiples of
`step` strictly below `stop`, in increasing order. -/
def pyRange (stop step : Nat) : List Nat :=
  List.range' 0 ((stop + step - 1) / step) step

/-- `split_audio` from `app.py`: cuts the waveform into chunks of at most
`max_chunk_ms` milliseconds.  The waveform is the list of its millisecond
frames (pydub slices an `AudioSegment` by milliseconds and `len` is its
duration in milliseconds); the slice `audio[start_ms:end_ms]` is
`(audio.drop start_ms).take (end_ms - start_ms)`. -/
def split_audio {α : Type} (audio : List α) (max_chunk_ms : Nat) : List (List α) :=
  (pyRange audio.length max_chunk_ms).map fun start_ms =>
    (audio.drop start_ms).take (min (start_ms + max_chunk_ms) audio.length - start_ms)

/-! ## Format normalizer (`src/utils/audio.py`) -/

/-- Behaviour of the external `ffmpeg` process on one invocation: whether the
binary exists, the exit status it returns, and the bytes it leaves at the
requested output path (`none` when it produces no output file, the usual
outcome of a failed conversion). -/
structure FfmpegSpec where
  available : Bool
  exitCode : Nat
  output : Option (List Nat)
deriving DecidableEq

/-- `convert_to_wav` from `src/utils/audio.py`, as a function of the input
bytes, the declared extension, the ffmpeg behaviour and the base name the OS
gives the transient `NamedTemporaryFile` (created with `delete=False`).  The
second component is the list of transient files present on disk when the
call returns, normally or with an exception; the source deletes none of
them.  `subprocess.run` is invoked without `check=True`, so a non-zero exit
status is silently ignored (only a missing binary raises, with
`FileNotFoundError`); the function then reads `output_path` back, and if
ffmpeg produced no file there `open` raises `FileNotFoundError`. -/
def convert_to_wav (input_bytes : List Nat) (input_extension : String)
    (ffmpeg : FfmpegSpec) (tmpBase : String) :
    Except PyError Buffer × List (String × List Nat) :=
  let input_path := tmpBase ++ "." ++ input_extension
  let disk0 := [(input_path, input_bytes)]
  let output_path := input_path ++ "_converted.wav"
  if ffmpeg.available then
    let disk1 := match ffmpeg.output with
      | some out => disk0 ++ [(output_path, out)]
      | none => disk0
    match disk1.lookup output_path with
    | some wav_data => (.ok ⟨"converted.wav", wav_data⟩, disk1)
    | none => (.error (.fileNotFound output_path), disk1)
  else
    (.error (.fileNotFound "ffmpeg"), disk0)

/-- Python `str.split(".")` on the character list of a string (splitting on
every dot, keeping empty pieces, `[""]` on the empty string). -/
def splitDot : List Char → List (List Char)
  | [] => [[]]
  | c :: cs =>
      let r := splitDot cs
      if c = '.' then [] :: r
      else
        match r with
        | [] => [[c]]
        | h :: t => (c :: h) :: t

/-- Python `name.split(".")[-1].lower()` from `prepare_audio`. -/
def file_ext_of (name : String) : String :=
  String.mk (((splitDot name.data).getLastD []).map Char.toLower)

/-- The 25 MiB ceiling `MAX_FILE_SIZE` from `src/utils/audio.py`. -/
def MAX_FILE_SIZE : Nat := 25 * 1024 * 1024

/-- `prepare_audio` from `src/utils/audio.py`: compute the lower-cased last
extension, reject uploads over `MAX_FILE_SIZE` with a `ValueError`, convert
`aac`/`amr` through ffmpeg, and pass every other upload through unchanged
under its original name.  The source checks the extension against no
accepted set.  The second component is the list of transient files left on
disk. -/
def prepare_audio (uploaded_file : Upload) (ffmpeg : FfmpegSpec) (tmpBase : String) :
    Except PyError Buffer × List (String × List Nat) :=
  let file_ext := file_ext_of uploaded_file.name
  let raw_bytes := uploaded_file.data
  if MAX_FILE_SIZE < uploaded_file.size then
    (.error (.valueError "Fichier trop volumineux. Limite actuelle : 25 Mo."), [])
  else if file_ext = "aac" ∨ file_ext = "amr" then
    convert_to_wav raw_bytes file_ext ffmpeg tmpBase
  else
    (.ok ⟨uploaded_file.name, raw_bytes⟩, [])

/-! ## Diarized formatting (`src/utils/transcription.py` and `app.py`) -/

/-- A diarized segment as returned by the service: speaker label, text, and
optional start/end offsets.  The source holds the offsets as float seconds
and renders them with `{:.1f}`; they are modelled exactly as tenths of a
second. -/
structure TranscriptSegment where
  speaker : String
  text : String
  start : Option Nat
  end_ : Option Nat
deriving DecidableEq

/-- Python `f"{x:.1f}"` on a non-negative number of tenths of a second. -/
def format_1f (tenths : Nat) : String :=
  toString (tenths / 10) ++ "." ++ toString (tenths % 10)

/-- One line of `transcribe_diarized` (`src/utils/transcription.py` lines
30–36): the source tests only `start`; when `start` is present it formats
both `start` and `end` with `{:.1f}`, so a missing `end` raises a
`TypeError` inside the f-string. -/
def diarized_line (seg : TranscriptSegment) : Except PyError String :=
  match seg.start with
  | some s =>
      match seg.end_ with
      | some e =>
          .ok (seg.speaker ++ " [" ++ format_1f s ++ "s–" ++ format_1f e ++ "s] : " ++ seg.text)
      | none => .error (.typeError "unsupported format string passed to NoneType.__format__")
  | none => .ok (seg.speaker ++ ": " ++ seg.text)

/-- The formatting part of `transcribe_diarized`
(`src/utils/transcription.py` lines 26–38), as a function of the segments
the service returned: one line per segment, in input order, joined with
newlines; the loop aborts at the first segment whose formatting raises. -/
def transcribe_diarized (segments : List TranscriptSegment) : Except PyError String :=
  (segments.mapM diarized_line).map (String.intercalate "\n")

/-- One line of the diarized formatting loop in `app.py` (lines 226–237):
this revision tests both `start` and `end` and prefixes the label with
`Speaker`. -/
def app_diarized_line (seg : TranscriptSegment) : String :=
  match seg.start, seg.end_ with
  | some s, some e =>
      "Speaker " ++ seg.speaker ++ " [" ++ format_1f s ++ "s–" ++ format_1f e ++ "s] : " ++ seg.text
  | _, _ => "Speaker " ++ seg.speaker ++ " : " ++ seg.text

/-! ## The two mode handlers of `app.py` -/

/-- Outcome of the diarized-mode button handler of `app.py`. -/
inductive DiarizedOutcome where
  | tooLarge
  | failed (e : String)
  | done (transcript : String)
deriving DecidableEq

/-- The diarized-mode handler of `app.py` (lines 197–250): a file over
`25 * 1024 * 1024` bytes is rejected before the service is contacted;
otherwise the whole upload is submitted once and the returned segments are
formatted.  `service` is the external call's behaviour; the `Bool` records
whether the service was invoked; the last component is the session
transcript slot, written only on success.  No path of this handler performs
any segmentation. -/
def diarized_run (fileSize : Nat) (service : Except String (List TranscriptSegment))
    (session : Option String) : DiarizedOutcome × Bool × Option String :=
  let max_bytes := 25 * 1024 * 1024
  if max_bytes < fileSize then
    (.tooLarge, false, session)
  else
    match service with
    | .error e => (.failed e, true, session)
    | .ok segments =>
        let labeled_transcript := String.intercalate "\n" (segments.map app_diarized_line)
        (.done labeled_transcript, true, some labeled_transcript)

/-- The plain-mode transcription loop of `app.py` (lines 151–161): submit
each chunk in order, collecting the returned texts; the first service
failure aborts the loop and propagates the originating error unchanged.
The first component is the list of chunks actually submitted, in submission
order. -/
def transcribe_loop {α : Type} (service : List α → Except String String) :
    List (List α) → List (List α) × Except String (List String)
  | [] => ([], .ok [])
  | chunk :: rest =>
      match service chunk with
      | .error e => ([chunk], .error e)
      | .ok text =>
          let step := transcribe_loop service rest
          (chunk :: step.1, step.2.map fun texts => text :: texts)

/-- The plain/segmented-mode handler of `app.py` (lines 125–183): split the
waveform, transcribe chunk by chunk, and on success join the texts with a
blank line (`"\n\n"`) and commit the result to the session transcript slot;
the exception handler of the source leaves the session slot untouched on
failure.  `fileSize` is the upload's declared size: no path of this handler
consults it (plain mode has no size ceiling in the source). -/
def plain_run {α : Type} (fileSize : Nat) (audio : List α) (max_chunk_ms : Nat)
    (service : List α → Except String String) (session : Option String) :
    Except String String × Option String :=
  let chunks := split_audio audio max_chunk_ms
  match (transcribe_loop service chunks).2 with
  | .error e => (.error e, session)
  | .ok all_text_parts =>
      let full_transcript := String.intercalate "\n\n" all_text_parts
      (.ok full_transcript, some full_transcript)

/-- Modelled from the spec (§4.5, with the separator amended to §8's literal
example): a timed segment renders as `<speaker> [<start>s–<end>s] : <text>`
(space before the colon) and an untimed one as `<speaker>: <text>`. -/
def line_spec (seg : TranscriptSegment) : String :=
  match seg.start, seg.end_ with
  | some s, some e =>
      seg.speaker ++ " [" ++ format_1f s ++ "s–" ++ format_1f e ++ "s] : " ++ seg.text
  | _, _ => seg.speaker ++ ": " ++ seg.text

/-! ## Segmenter lemmas -/

theorem take_min_length {α : Type} (l : List α) (M : Nat) :
    l.take (min M l.length) = l.take M := by
  rcases le_total M l.length with h | h
  · rw [Nat.min_eq_left h]
  · rw [Nat.min_eq_right h, List.take_of_length_le h, List.take_length]

theorem pyRange_zero (step : Nat) : pyRange 0 step = [] := by
  unfold pyRange
  rcases Nat.eq_zero_or_pos step with h | h
  · subst h; rfl
  · rw [Nat.div_eq_of_lt (by omega)]
    rfl

theorem split_audio_nil {α : Type} (M : Nat) : split_audio ([] : List α) M = [] := by
  unfold split_audio
  rw [List.length_nil, pyRange_zero]
  rfl

/-- The number of chunk starts for a nonempty waveform is one more than for
the waveform with its first `M` frames removed. -/
theorem ceil_count_succ {M n : Nat} (hM : 0 < M) (hn : 0 < n) :
    (n + M - 1) / M = (n - M + M - 1) / M + 1 := by
  have h1 : n + M - 1 = (n - 1) + M := by omega
  rw [h1, Nat.add_div_right _ hM]
  rcases le_or_lt n M with h | h
  · have h2 : n - M = 0 := by omega
    rw [h2, Nat.div_eq_of_lt (show 0 + M - 1 < M by omega),
      Nat.div_eq_of_lt (show n - 1 < M by omega)]
  · have h3 : n - M + M - 1 = (n - M - 1) + M := by omega
    rw [h3, Nat.add_div_right _ hM]
    have h4 : n - 1 = (n - M - 1) + M := by omega
    rw [h4, Nat.add_div_right _ hM]

/-- Unfolding equation of `split_audio`: a nonempty waveform splits into its
first `M` frames followed by the chunks of the rest. -/
theorem split_audio_cons {α : Type} {M : Nat} (hM : 0 < M) (audio : List α)
    (hne : audio ≠ []) :
    split_audio audio M = audio.take M :: split_audio (audio.drop M) M := by
  have hn : 0 < audio.length := List.length_pos.mpr hne
  unfold split_audio pyRange
  rw [List.length_drop, ceil_count_succ hM hn, List.range'_succ, List.map_cons]
  congr 1
  · simp only [List.drop_zero, Nat.zero_add, Nat.sub_zero]
    exact take_min_length audio M
  · rw [Nat.zero_add]
    have hr := List.map_add_range' M 0 ((audio.length - M + M - 1) / M) M
    rw [Nat.add_zero] at hr
    rw [← hr, List.map_map]
    refine List.map_congr_left fun s _ => ?_
    simp only [Function.comp_apply]
    rw [List.drop_drop]
    congr 1
    omega

/-- The chunks of `split_audio` concatenate back to the input waveform. -/
theorem split_audio_flatten {α : Type} {M : Nat} (hM : 0 < M) (audio : List α) :
    (split_audio audio M).flatten = audio := by
  suffices H : ∀ n (l : List α), l.length ≤ n → (split_audio l M).flatten = l from
    H audio.length audio le_rfl
  intro n
  induction n with
  | zero =>
    intro l hl
    have : l = [] := by cases l <;> simp_all
    subst this
    rw [split_audio_nil]
    rfl
  | succ n ih =>
    intro l hl
    by_cases hne : l = []
    · subst hne; rw [split_audio_nil]; rfl
    · have hpos : 0 < l.length := List.length_pos.mpr hne
      rw [split_audio_cons hM l hne, List.flatten_cons,
        ih (l.drop M) (by rw [List.length_drop]; omega)]
      exact List.take_append_drop M l

/-- Every chunk of `split_audio` is at most `M` frames long. -/
theorem split_audio_chunk_le {α : Type} (audio : List α) (M : Nat) :
    ∀ c ∈ split_audio audio M, c.length ≤ M := by
  intro c hc
  unfold split_audio at hc
  rw [List.mem_map] at hc
  obtain ⟨s, _, rfl⟩ := hc
  simp only [List.length_take, List.length_drop]
  omega

/-- For a nonempty waveform, all chunks but the last are exactly `M` frames
and the last one has `length % M` frames (`M` when the remainder is zero). -/
theorem split_audio_last {α : Type} {M : Nat} (hM : 0 < M) (audio : List α)
    (hne : audio ≠ []) :
    ∃ body last, split_audio audio M = body ++ [last] ∧
      (∀ c ∈ body, c.length = M) ∧
      last.length = (if audio.length % M = 0 then M else audio.length % M) := by
  suffices H : ∀ n (l : List α), l.length ≤ n → l ≠ [] →
      ∃ body last, split_audio l M = body ++ [last] ∧
        (∀ c ∈ body, c.length = M) ∧
        last.length = (if l.length % M = 0 then M else l.length % M) from
    H audio.length audio le_rfl hne
  intro n
  induction n with
  | zero =>
    intro l hl hne'
    exact absurd (by cases l <;> simp_all) hne'
  | succ n ih =>
    intro l hl hne'
    have hpos : 0 < l.length := List.length_pos.mpr hne'
    rcases le_or_lt l.length M with hle | hgt
    · refine ⟨[], l, ?_, by simp, ?_⟩
      · rw [split_audio_cons hM l hne', List.drop_eq_nil_of_le hle, split_audio_nil,
          List.take_of_length_le hle]
        rfl
      · rcases eq_or_lt_of_le hle with heq | hlt
        · rw [heq, Nat.mod_self]
          simp [heq]
        · rw [Nat.mod_eq_of_lt hlt, if_neg (by omega)]
    · have hne'' : l.drop M ≠ [] := by
        intro h
        rw [List.drop_eq_nil_iff] at h
        omega
      obtain ⟨body, last, hsplit, hbody, hlast⟩ :=
        ih (l.drop M) (by rw [List.length_drop]; omega) hne''
      rw [List.length_drop, ← Nat.mod_eq_sub_mod (by omega : l.length ≥ M)] at hlast
      refine ⟨l.take M :: body, last, ?_, ?_, hlast⟩
      · rw [split_audio_cons hM l hne', hsplit]
        rfl
      · intro c hc
        rcases List.mem_cons.mp hc with rfl | hc
        · rw [List.length_take]
          omega
        · exact hbody c hc

/-- Claim C1: for every waveform and positive max-segment duration `M`,
`split_audio` returns an ordered sequence of contiguous, non-overlapping
segments whose in-order concatenation is exactly the input (no frame dropped
or duplicated at boundaries), whose total duration equals the input
duration, each at most `M` long; and for a nonempty input all segments but
the last are exactly `M` long while the last has duration `length % M`, or
`M` when that remainder is `0`. -/
theorem claim_C1_segmenter_partition {α : Type} (audio : List α) (M : Nat) (hM : 0 < M) :
    (split_audio audio M).flatten = audio ∧
    ((split_audio audio M).map List.length).sum = audio.length ∧
    (∀ c ∈ split_audio audio M, c.length ≤ M) ∧
    (audio ≠ [] → ∃ body last, split_audio audio M = body ++ [last] ∧
      (∀ c ∈ body, c.length = M) ∧
      last.length = (if audio.length % M = 0 then M else audio.length % M)) := by
  refine ⟨split_audio_flatten hM audio, ?_, split_audio_chunk_le audio M,
    fun hne => split_audio_last hM audio hne⟩
  rw [← List.length_flatten, split_audio_flatten hM audio]

/-- Witness for C1 at a concrete 5-frame waveform and `M = 2`. -/
theorem claim_C1_witness :
    (split_audio [10, 20, 30, 40, 50] 2).flatten = [10, 20, 30, 40, 50] ∧
    ((split_audio [10, 20, 30, 40, 50] 2).map List.length).sum =
      [10, 20, 30, 40, 50].length ∧
    (∀ c ∈ split_audio [10, 20, 30, 40, 50] 2, c.length ≤ 2) ∧
    ([10, 20, 30, 40, 50] ≠ ([] : List Nat) →
      ∃ body last, split_audio [10, 20, 30, 40, 50] 2 = body ++ [last] ∧
        (∀ c ∈ body, c.length = 2) ∧
        last.length =
          (if [10, 20, 30, 40, 50].length % 2 = 0 then 2
           else [10, 20, 30, 40, 50].length % 2)) :=
  claim_C1_segmenter_partition [10, 20, 30, 40, 50] 2 (by decide)

/-- Claim C9: a nonempty waveform no longer than the max-segment duration is
returned as exactly one segment equal to the whole input, without padding. -/
theorem claim_C9_single_segment {α : Type} (audio : List α) (M : Nat)
    (hne : audio ≠ []) (hlen : audio.length ≤ M) :
    split_audio audio M = [audio] := by
  have hpos : 0 < audio.length := List.length_pos.mpr hne
  have hM : 0 < M := lt_of_lt_of_le hpos hlen
  rw [split_audio_cons hM audio hne, List.drop_eq_nil_of_le hlen, split_audio_nil,
    List.take_of_length_le hlen]

/-- Witness for C9: a 3-minute clip (180000 ms) with `max_chunk_ms` of 10
minutes (600000 ms) yields exactly one segment equal to the whole clip. -/
theorem claim_C9_witness :
    split_audio (List.replicate 180000 (0 : Nat)) 600000 =
      [List.replicate 180000 (0 : Nat)] :=
  claim_C9_single_segment _ _
    (List.ne_nil_of_length_pos (by rw [List.length_replicate]; norm_num))
    (by rw [List.length_replicate]; norm_num)

/-- Claim C10: the empty waveform yields zero segments (not one empty
segment) for every positive max-segment duration. -/
theorem claim_C10_empty_waveform (M : Nat) (hM : 0 < M) :
    split_audio ([] : List Int) M = [] :=
  split_audio_nil M

/-- Witness for C10 at `M = 1`. -/
theorem claim_C10_witness : split_audio ([] : List Int) 1 = [] :=
  claim_C10_empty_waveform 1 (by decide)

/-! ## Normalizer and gatekeeper lemmas -/

theorem string_ne_append_converted (s : String) : s ≠ s ++ "_converted.wav" := by
  intro h
  have hlen := congrArg String.length h
  rw [String.length_append] at hlen
  have h14 : ("_converted.wav" : String).length = 14 := by decide
  omega

/-- Counterexample to C2: with ffmpeg present but exiting non-zero and
producing no output file, `convert_to_wav` fails with the uncaught
`FileNotFoundError` of `open` on the output path — not with a
`ConversionFailed` — and the transient input file written for the transcoder
is left on disk. -/
theorem claim_C2_counterexample :
    (convert_to_wav [1, 2] "aac" ⟨true, 1, none⟩ "/tmp/x").1 =
      .error (.fileNotFound "/tmp/x.aac_converted.wav") ∧
    ("/tmp/x.aac", [1, 2]) ∈ (convert_to_wav [1, 2] "aac" ⟨true, 1, none⟩ "/tmp/x").2 := by
  decide

/-- Claim C2 (amended): `convert_to_wav` never consults the transcoder's
exit status (its result is independent of the exit code); when the
transcoder produces no output file the call fails — with an uncaught
`FileNotFoundError` rather than a dedicated `ConversionFailed`, likewise
when the binary is missing — and a successful return always carries the
bytes the transcoder wrote, never the unconverted input as such; but no
cleanup happens on any exit path: the transient input file is left on disk
in every case, and whenever the transcoder produced an output file, that
file remains on disk as well. -/
theorem claim_C2_no_cleanup_and_uncaught_failure (input_bytes : List Nat)
    (input_extension : String) (ffmpeg : FfmpegSpec) (tmpBase : String) :
    (tmpBase ++ "." ++ input_extension, input_bytes) ∈
      (convert_to_wav input_bytes input_extension ffmpeg tmpBase).2 ∧
    (∀ e₁ e₂, convert_to_wav input_bytes input_extension
        ⟨ffmpeg.available, e₁, ffmpeg.output⟩ tmpBase =
      convert_to_wav input_bytes input_extension
        ⟨ffmpeg.available, e₂, ffmpeg.output⟩ tmpBase) ∧
    (ffmpeg.available = true → ffmpeg.output = none →
      (convert_to_wav input_bytes input_extension ffmpeg tmpBase).1 =
        .error (.fileNotFound (tmpBase ++ "." ++ input_extension ++ "_converted.wav"))) ∧
    (ffmpeg.available = false →
      (convert_to_wav input_bytes input_extension ffmpeg tmpBase).1 =
        .error (.fileNotFound "ffmpeg")) ∧
    (∀ buf, (convert_to_wav input_bytes input_extension ffmpeg tmpBase).1 = .ok buf →
      ffmpeg.output = some buf.data) ∧
    (∀ produced, ffmpeg.available = true → ffmpeg.output = some produced →
      (tmpBase ++ "." ++ input_extension ++ "_converted.wav", produced) ∈
        (convert_to_wav input_bytes input_extension ffmpeg tmpBase).2) := by
  have hbeq : ((tmpBase ++ "." ++ input_extension ++ "_converted.wav") ==
      (tmpBase ++ "." ++ input_extension)) = false :=
    beq_eq_false_iff_ne.mpr (string_ne_append_converted _).symm
  obtain ⟨av, ec, out⟩ := ffmpeg
  refine ⟨?_, fun e₁ e₂ => rfl, ?_, ?_, ?_, ?_⟩
  · cases av
    · simp [convert_to_wav]
    · cases out <;> simp [convert_to_wav, List.lookup, hbeq]
  · intro hav hout
    subst hav
    subst hout
    simp [convert_to_wav, List.lookup, hbeq]
  · intro hav
    subst hav
    simp [convert_to_wav]
  · intro buf
    cases av
    · simp [convert_to_wav]
    · cases out
      · simp [convert_to_wav, List.lookup, hbeq]
      · simp [convert_to_wav, List.lookup, hbeq]
        intro h
        rw [← h]
  · intro produced hav hout
    subst hav
    subst hout
    simp [convert_to_wav, List.lookup, hbeq]

/-- Witness for the amended C2: a run with the transcoder binary missing,
and a run where the transcoder wrote an output file that then remains on
disk. -/
theorem claim_C2_witness :
    ("/tmp/y.amr", [3]) ∈ (convert_to_wav [3] "amr" ⟨false, 1, none⟩ "/tmp/y").2 ∧
    (convert_to_wav [3] "amr" ⟨false, 1, none⟩ "/tmp/y").1 =
      .error (.fileNotFound "ffmpeg") ∧
    ("/tmp/y.amr_converted.wav", [9]) ∈
      (convert_to_wav [3] "amr" ⟨true, 1, some [9]⟩ "/tmp/y").2 :=
  ⟨(claim_C2_no_cleanup_and_uncaught_failure [3] "amr" ⟨false, 1, none⟩ "/tmp/y").1,
   (claim_C2_no_cleanup_and_uncaught_failure [3] "amr" ⟨false, 1, none⟩ "/tmp/y").2.2.2.1 rfl,
   (claim_C2_no_cleanup_and_uncaught_failure [3] "amr" ⟨true, 1, some [9]⟩
      "/tmp/y").2.2.2.2.2 [9] rfl rfl⟩

/-- Counterexample to C3: an upload with declared extension `ogg` (outside
the accepted set) and a small size is not rejected with an
`UnsupportedFormat` error: `prepare_audio` returns it unchanged. -/
theorem claim_C3_counterexample :
    prepare_audio ⟨"meeting.ogg", 1000, [7]⟩ ⟨true, 0, some [9]⟩ "/tmp/x" =
      (.ok ⟨"meeting.ogg", [7]⟩, []) := by
  decide

/-- Claim C3 (amended): `prepare_audio` performs no extension-acceptance
check: every upload within the 25 MiB ceiling whose lower-cased extension is
neither `aac` nor `amr` — `ogg` included — is passed through unchanged under
its original name, with no error raised, no transient file created and no
transcoder invoked; no `UnsupportedFormat` rejection exists in the code (the
upload widget of `app.py` merely restricts the file picker to mp3/wav/m4a). -/
theorem claim_C3_no_extension_gate (u : Upload) (ffmpeg : FfmpegSpec) (tmpBase : String)
    (hsize : u.size ≤ MAX_FILE_SIZE)
    (haac : file_ext_of u.name ≠ "aac") (hamr : file_ext_of u.name ≠ "amr") :
    prepare_audio u ffmpeg tmpBase = (.ok ⟨u.name, u.data⟩, []) := by
  unfold prepare_audio
  rw [if_neg (Nat.not_lt.mpr hsize), if_neg (fun h => h.elim haac hamr)]

/-- Witness for the amended C3 at an `ogg` upload. -/
theorem claim_C3_witness :
    prepare_audio ⟨"talk.ogg", 26, [1, 2, 3]⟩ ⟨true, 0, none⟩ "/tmp/z" =
      (.ok ⟨"talk.ogg", [1, 2, 3]⟩, []) :=
  claim_C3_no_extension_gate _ _ _ (by decide) (by decide) (by decide)

/-! ## Transcription orchestrator lemmas -/

/-- When every service call succeeds, the plain loop submits exactly the
given chunks, in order, and collects their texts in the same order. -/
theorem transcribe_loop_ok {α : Type} (f : List α → String) (chunks : List (List α)) :
    transcribe_loop (fun c => .ok (f c)) chunks = (chunks, .ok (chunks.map f)) := by
  induction chunks with
  | nil => rfl
  | cons c cs ih =>
    simp only [transcribe_loop, ih, List.map_cons]
    rfl

theorem getD_map {α β : Type} (f : α → β) (l : List α) (i : Nat) (d : α) :
    (l.map f).getD i (f d) = f (l.getD i d) := by
  induction l generalizing i with
  | nil => simp
  | cons a l ih =>
    cases i with
    | zero => simp
    | succ n =>
      simp only [List.map_cons, List.getD_cons_succ]
      exact ih n

/-- Claim C4: an upload over 25 MiB in diarized mode is rejected before the
transcription service is invoked, leaving the session slot untouched, for
every service behaviour (the diarized handler performs no segmentation on
any path); the same upload submitted in segmented plain mode proceeds: with
every chunk transcribing successfully it produces the joined transcript —
the plain path consults no size ceiling at all. -/
theorem claim_C4_diarized_size_gate {α : Type} (fileSize : Nat)
    (hsize : 25 * 1024 * 1024 < fileSize)
    (service : Except String (List TranscriptSegment)) (session : Option String)
    (audio : List α) (M : Nat) (f : List α → String) :
    diarized_run fileSize service session = (.tooLarge, false, session) ∧
    plain_run fileSize audio M (fun c => .ok (f c)) session =
      (.ok (String.intercalate "\n\n" ((split_audio audio M).map f)),
       some (String.intercalate "\n\n" ((split_audio audio M).map f))) := by
  constructor
  · unfold diarized_run
    rw [if_pos hsize]
  · dsimp only [plain_run]
    rw [transcribe_loop_ok]

/-- Witness for C4 at a 26 MiB upload. -/
theorem claim_C4_witness :
    diarized_run (26 * 1024 * 1024) (.ok []) (some "old") =
      (.tooLarge, false, some "old") ∧
    plain_run (26 * 1024 * 1024) ([5, 6] : List Nat) 1 (fun _ => .ok "t") (some "old") =
      (.ok (String.intercalate "\n\n" ((split_audio ([5, 6] : List Nat) 1).map fun _ => "t")),
       some (String.intercalate "\n\n" ((split_audio ([5, 6] : List Nat) 1).map fun _ => "t"))) :=
  claim_C4_diarized_size_gate (26 * 1024 * 1024) (by decide) (.ok []) (some "old")
    [5, 6] 1 (fun _ => "t")

/-- Claim C5: in plain mode the chunks are submitted in sequence order (the
submission log is the chunk list itself) and the final transcript is the
per-chunk texts joined, in that order, by a blank-line separator; and
re-indexing the chunk sequence before submission re-indexes the collected
texts identically — no reordering or interleaving. -/
theorem claim_C5_order_and_concat {α : Type} (fileSize : Nat) (audio : List α)
    (M : Nat) (session : Option String) (f : List α → String) (dflt : List α) :
    transcribe_loop (fun c => .ok (f c)) (split_audio audio M) =
      (split_audio audio M, .ok ((split_audio audio M).map f)) ∧
    plain_run fileSize audio M (fun c => .ok (f c)) session =
      (.ok (String.intercalate "\n\n" ((split_audio audio M).map f)),
       some (String.intercalate "\n\n" ((split_audio audio M).map f))) ∧
    (∀ idxs : List Nat,
      (transcribe_loop (fun c => .ok (f c))
          (idxs.map fun i => (split_audio audio M).getD i dflt)).2 =
        .ok (idxs.map fun i => ((split_audio audio M).map f).getD i (f dflt))) := by
  refine ⟨transcribe_loop_ok f _, ?_, ?_⟩
  · dsimp only [plain_run]
    rw [transcribe_loop_ok]
  · intro idxs
    rw [transcribe_loop_ok, List.map_map]
    refine congrArg Except.ok (List.map_congr_left fun i _ => ?_)
    simp only [Function.comp_apply]
    exact (getD_map f _ i dflt).symm

/-- A plain-mode service behaviour failing on the chunk `[1]`. -/
def failing_service_1 : List Nat → Except String String :=
  fun c => if c = [1] then .error "boom" else .ok "T"

/-- A plain-mode service behaviour failing on the chunk `[2]`. -/
def failing_service_2 : List Nat → Except String String :=
  fun c => if c = [2] then .error "boom" else .ok "T"

/-- Counterexample to C6: two plain runs over the waveform `[0, 1, 2]` with
chunk size 1, one whose service fails at segment index 1 and one failing at
segment index 2 (the submission logs show the differing failure positions),
produce exactly the same result — so the surfaced error is the originating
error bare, carrying no `TranscriptionFailed` wrapper and no failed-segment
index; the session slot keeps its previous value. -/
theorem claim_C6_counterexample :
    (transcribe_loop failing_service_1 (split_audio [0, 1, 2] 1)).1 = [[0], [1]] ∧
    (transcribe_loop failing_service_2 (split_audio [0, 1, 2] 1)).1 = [[0], [1], [2]] ∧
    plain_run 0 [0, 1, 2] 1 failing_service_1 (some "previous") =
      plain_run 0 [0, 1, 2] 1 failing_service_2 (some "previous") ∧
    plain_run 0 [0, 1, 2] 1 failing_service_1 (some "previous") =
      (.error "boom", some "previous") := by
  decide

/-- Claim C6 (amended): when any segment's service call fails, the plain
segmented run aborts with the originating error propagated unchanged — there
is no `TranscriptionFailed` wrapper and no failed-segment index attached to
it (the running index is only displayed transiently in the progress status)
— and the partial transcripts already collected are discarded: the session
transcript slot is left exactly as it was before the run. -/
theorem claim_C6_abort_discards_partials {α : Type} (fileSize : Nat) (audio : List α)
    (M : Nat) (service : List α → Except String String) (session : Option String)
    (e : String)
    (h : (transcribe_loop service (split_audio audio M)).2 = .error e) :
    plain_run fileSize audio M service session = (.error e, session) := by
  dsimp only [plain_run]
  rw [h]

/-- Witness for the amended C6 at a concrete failing run. -/
theorem claim_C6_witness :
    plain_run 0 ([0, 1, 2] : List Nat) 1 failing_service_1 (some "old") =
      (.error "boom", some "old") :=
  claim_C6_abort_discards_partials 0 [0, 1, 2] 1 failing_service_1 (some "old") "boom"
    (by decide)

/-! ## Diarized formatter lemmas -/

/-- Under the pairing invariant a single segment formats successfully, and
exactly as the (amended) spec line. -/
theorem diarized_line_eq_spec (seg : TranscriptSegment)
    (h : seg.start.isSome → seg.end_.isSome) :
    diarized_line seg = .ok (line_spec seg) := by
  unfold diarized_line line_spec
  cases hs : seg.start with
  | none => cases seg.end_ <;> rfl
  | some s =>
    cases he : seg.end_ with
    | some e => rfl
    | none =>
      have := h (by rw [hs]; rfl)
      rw [he] at this
      exact absurd this (by simp)

/-- Under the pairing invariant, `transcribe_diarized` succeeds and renders
one `line_spec` line per segment, in input order, joined by newlines. -/
theorem transcribe_diarized_eq_spec :
    ∀ segments : List TranscriptSegment,
      (∀ seg ∈ segments, seg.start.isSome → seg.end_.isSome) →
      transcribe_diarized segments =
        .ok (String.intercalate "\n" (segments.map line_spec)) := by
  have key : ∀ segments : List TranscriptSegment,
      (∀ seg ∈ segments, seg.start.isSome → seg.end_.isSome) →
      segments.mapM diarized_line = .ok (segments.map line_spec) := by
    intro segments
    induction segments with
    | nil => intro _; rfl
    | cons seg rest ih =>
      intro h
      rw [List.mapM_cons, diarized_line_eq_spec seg (h seg (List.mem_cons_self ..)),
        ih fun s hs => h s (List.mem_cons_of_mem _ hs)]
      rfl
  intro segments h
  unfold transcribe_diarized
  rw [key segments h]
  rfl

/-- Counterexample to C7: on the two-segment example the formatter emits a
space before the colon of every timed line (`"] : "`), not the claimed
`"]: "` rendering. -/
theorem claim_C7_counterexample :
    transcribe_diarized
        [⟨"A", "hi", some 0, some 52⟩, ⟨"B", "bye", some 52, some 90⟩] ≠
      .ok "A [0.0s–5.2s]: hi\nB [5.2s–9.0s]: bye" ∧
    transcribe_diarized
        [⟨"A", "hi", some 0, some 52⟩, ⟨"B", "bye", some 52, some 90⟩] =
      .ok "A [0.0s–5.2s] : hi\nB [5.2s–9.0s] : bye" := by
  decide

/-- Claim C7 (amended): for every sequence of `TranscriptSegment`s
satisfying the pairing invariant, the formatter returns exactly one line per
segment, in input order — no sorting by speaker or time, no deduplication —
where a timed segment renders as `<speaker> [<start>s–<end>s] : <text>`
(with a space before the colon, as in the spec's §8 literal example) and an
untimed one as `<speaker>: <text>`, the lines joined by single newlines; on
the two-segment example the output is exactly the two corresponding lines
joined by a newline. -/
theorem claim_C7_formatter_order (segments : List TranscriptSegment)
    (h : ∀ seg ∈ segments, seg.start.isSome → seg.end_.isSome) :
    transcribe_diarized segments =
      .ok (String.intercalate "\n" (segments.map line_spec)) :=
  transcribe_diarized_eq_spec segments h

/-- Witness for the amended C7 at the spec's two-segment example. -/
theorem claim_C7_witness :
    transcribe_diarized [⟨"A", "hi", some 0, some 52⟩, ⟨"B", "bye", some 52, some 90⟩] =
      .ok "A [0.0s–5.2s] : hi\nB [5.2s–9.0s] : bye" :=
  (claim_C7_formatter_order
      [⟨"A", "hi", some 0, some 52⟩, ⟨"B", "bye", some 52, some 90⟩]
      (by decide)).trans (by decide)

/-- Claim C8: under the pairing invariant (`start` present implies `end`
present) the diarized formatting of `transcribe_diarized` is total — every
segment formats, so the whole formatter returns a transcript — while
without the precondition the ill-formed branch is reachable, because the
source tests only `start`: a segment with `start` present and `end` absent
makes the formatter abort with the `TypeError` raised inside the f-string. -/
theorem claim_C8_pairing_invariant_totality (segments : List TranscriptSegment)
    (h : ∀ seg ∈ segments, seg.start.isSome → seg.end_.isSome) :
    (∃ s, transcribe_diarized segments = .ok s) ∧
    transcribe_diarized [⟨"A", "oops", some 10, none⟩] =
      .error (.typeError "unsupported format string passed to NoneType.__format__") :=
  ⟨⟨_, transcribe_diarized_eq_spec segments h⟩, by decide⟩

/-- Witness for C8 at a one-segment untimed list. -/
theorem claim_C8_witness :
    (∃ s, transcribe_diarized [⟨"B", "x", none, none⟩] = .ok s) ∧
    transcribe_diarized [⟨"A", "oops", some 10, none⟩] =
      .error (.typeError "unsupported format string passed to NoneType.__format__") :=
  claim_C8_pairing_invariant_totality [⟨"B", "x", none, none⟩] (by decide)

end Recap
